import Mathlib

/-!
# Verification of the relativity_sim core

Shallow embedding of the repository's core:

* `src/engine/cas.ts` — symbolic algebra adapter, kinematic solver,
  numeric evaluator and proper-time locator.  The external engines
  (nerdamer, mathjs) are modelled as oracles (`CasEnv`): each call either
  throws (`none`) or returns a result.  JavaScript IEEE-754 numbers are
  modelled by `JSNum`: every finite double is an exact rational, and the
  special values `Infinity`, `-Infinity`, `NaN` are separate constructors.
* `src/components/SpacetimeGraph.tsx` — the Lorentz transform engine and
  causality validator.  Numeric functions that need no square root are
  stated over an arbitrary linear ordered field `K` (so that exact
  rational instances are executable); the boost builder, which divides by
  `Math.sqrt`, is stated over `ℝ`.
* `src/store/useSimulatorStore.ts` — the simulator store, modelled as a
  step function over an action type, with reachability from the initial
  state.
-/

/-! ## JavaScript numbers -/

/-- A JavaScript number: a finite IEEE-754 double (every finite double is
an exact rational), positive or negative infinity, or `NaN`. -/
inductive JSNum where
  | num (x : ℚ)
  | posInf
  | negInf
  | nan
deriving DecidableEq, Repr

/-- `Number.isNaN`. -/
def JSNum.isNaN : JSNum → Bool
  | .nan => true
  | _ => false

/-- Whether a JavaScript number is a finite real value. -/
def JSNum.isFinite : JSNum → Bool
  | .num _ => true
  | _ => false

/-- `Math.abs(a - t) < eps` for a JavaScript number `a` and finite `t`,
`eps`: infinities have infinite absolute difference and every comparison
with `NaN` is false. -/
def JSNum.absSubLt (a : JSNum) (t eps : ℚ) : Bool :=
  match a with
  | .num x => |x - t| < eps
  | _ => false

/-- `Math.abs(a - t) > bound` for a JavaScript number `a` and finite `t`,
`bound ≥ 0`: for `±Infinity` the absolute difference is `Infinity`, which
exceeds every finite bound; every comparison with `NaN` is false. -/
def JSNum.absSubGt (a : JSNum) (t bound : ℚ) : Bool :=
  match a with
  | .num x => |x - t| > bound
  | .posInf => true
  | .negInf => true
  | .nan => false

/-- `a < t` for a JavaScript number `a` and finite `t`. -/
def JSNum.ltQ (a : JSNum) (t : ℚ) : Bool :=
  match a with
  | .num x => x < t
  | .posInf => false
  | .negInf => true
  | .nan => false

/-! ## Data model of `cas.ts` -/

/-- `Vector4 = [string, string, string, string]`: a symbolic 4-vector of
expression strings over the free variable `tau`. -/
structure Vector4 where
  c0 : String
  c1 : String
  c2 : String
  c3 : String
deriving DecidableEq, Repr

/-- `NumericVector4 = [number, number, number, number]` as produced by the
evaluator: four JavaScript numbers. -/
structure NumericVector4 where
  c0 : JSNum
  c1 : JSNum
  c2 : JSNum
  c3 : JSNum
deriving DecidableEq, Repr

/-- The zero vector `[0, 0, 0, 0]`. -/
def zeroNumeric4 : NumericVector4 :=
  ⟨.num 0, .num 0, .num 0, .num 0⟩

/-- A 4-tuple of finite numbers (used for initial conditions, which the
store holds as plain numbers). -/
structure Quad4 where
  c0 : ℚ
  c1 : ℚ
  c2 : ℚ
  c3 : ℚ
deriving DecidableEq, Repr

/-! ## Constant substitution

`substituteConstants` replaces each constant name by its parenthesised
value using the regex `\bname\b` (global), longest name first.  All the
constant names consist of word characters, and for such a name a
`\bname\b` occurrence is exactly a maximal run of word characters equal to
the name.  We therefore split the string into maximal runs of word /
non-word characters and replace the matching word runs; this is
observably the same global replacement the source performs, and it keeps
every definition structurally recursive. -/

/-- JavaScript's word-character class `\w = [A-Za-z0-9_]`. -/
def isWordChar (ch : Char) : Bool :=
  ch.isAlpha || ch.isDigit || ch = '_'

/-- Split a character list into maximal runs, each tagged with whether it
is a run of word characters. -/
def wordRuns : List Char → List (Bool × List Char)
  | [] => []
  | ch :: rest =>
    match wordRuns rest with
    | [] => [(isWordChar ch, [ch])]
    | (b, run) :: ts =>
      if b = isWordChar ch then (b, ch :: run) :: ts
      else (isWordChar ch, [ch]) :: (b, run) :: ts

/-- `expr.replace(new RegExp("\\b" + name + "\\b", "g"), "(" + value + ")")`
for a name made of word characters: every maximal word run equal to the
name is replaced by the parenthesised value. -/
def replaceToken (name value : String) (s : String) : String :=
  String.mk (List.flatten ((wordRuns s.data).map
    (fun p => if p.1 && decide (p.2 = name.data)
              then ('(' :: value.data) ++ [')'] else p.2)))

/-- Whether `\bname\b` occurs in `s` (for a name of word characters):
some maximal word run equals the name. -/
def hasToken (name : String) (s : String) : Bool :=
  (wordRuns s.data).any (fun p => p.1 && decide (p.2 = name.data))

/-- The `CONSTANTS` table, in source (insertion) order. -/
def CONSTANTS : List (String × String) :=
  [("c", "1"), ("g", "9.80665"), ("hbar", "1"), ("kb", "1"),
   ("phi", "1.6180339887")]

/-- Stable insertion of an entry into a list sorted by name length
descending: the entry goes after every entry with a strictly longer
name and before entries of equal or shorter length that followed it. -/
def insertByLenDesc (p : String × String) :
    List (String × String) → List (String × String)
  | [] => [p]
  | q :: t =>
    if p.1.length < q.1.length then q :: insertByLenDesc p t
    else p :: q :: t

/-- Stable sort by name length descending, as the source's
`sort((a, b) => b[0].length - a[0].length)` produces. -/
def sortByLenDesc : List (String × String) → List (String × String)
  | [] => []
  | x :: xs => insertByLenDesc x (sortByLenDesc xs)

/-- `substituteConstants`: each constant, longest name first, is replaced
throughout the (already partially substituted) string by its
parenthesised value. -/
def substituteConstants (expr : String) : String :=
  (sortByLenDesc CONSTANTS).foldl
    (fun acc p => replaceToken p.1 p.2 acc) expr

/-! ## The external algebra/evaluation engines as oracles -/

/-- The external engines consumed by `cas.ts`.  `run s` is
`nerdamer(s).text()`, `runAtTau s t` is `nerdamer(s, {tau: t}).text()`,
`mathEval s` is `Number(mathjs.evaluate(s))`, and `numToString` is
JavaScript's `Number.prototype.toString`.  A `none` result models a
thrown exception. -/
structure CasEnv where
  run : String → Option String
  runAtTau : String → String → Option String
  mathEval : String → Option JSNum
  numToString : ℚ → String

/-- JavaScript's `String.prototype.trim`: strip leading and trailing
whitespace.  (Defined structurally over the character list so that it
evaluates inside the kernel.) -/
def jsTrim (s : String) : String :=
  String.mk
    (((s.data.dropWhile Char.isWhitespace).reverse.dropWhile
        Char.isWhitespace).reverse)

/-- The degenerate-input test of `deriveSymbolic` / `integrateSymbolic`:
`!expr || expr.trim() === '' || expr.trim() === '0'`. -/
def degenerateExpr (expr : String) : Bool :=
  expr = "" || jsTrim expr = "" || jsTrim expr = "0"

/-- `validateExpression`: parse the constant-substituted expression,
reporting any exception as `false`. -/
def validateExpression (E : CasEnv) (expr : String) : Bool :=
  (E.run (substituteConstants expr)).isSome

/-- `deriveSymbolic`: degenerate inputs short-circuit to `"0"`; otherwise
the engine differentiates `diff(expr, v)`.  The expression is passed to
the engine as written (no constant substitution). -/
def deriveSymbolic (E : CasEnv) (expr v : String) : Option String :=
  if degenerateExpr expr then some "0"
  else E.run ("diff(" ++ expr ++ ", " ++ v ++ ")")

/-- `integrateSymbolic`: degenerate inputs short-circuit to the constant's
literal; otherwise the engine integrates, the antiderivative is evaluated
at `tau = 0`, and the returned expression is
`integrated - (valueAtZero) + (constant)`.  The expression is passed to
the engine as written (no constant substitution). -/
def integrateSymbolic (E : CasEnv) (expr : String) (constant : ℚ)
    (v : String) : Option String :=
  if degenerateExpr expr then some (E.numToString constant)
  else do
    let integrated ← E.run ("integrate(" ++ expr ++ ", " ++ v ++ ")")
    let evaluatedAtZero ← E.runAtTau integrated "0"
    E.run (integrated ++ " - (" ++ evaluatedAtZero ++ ") + ("
           ++ E.numToString constant ++ ")")

/-- The kinematic triple `{X, U, A}` returned by the solvers. -/
structure KinTriple where
  X : Vector4
  U : Vector4
  A : Vector4
deriving DecidableEq, Repr

/-- `solveFromPosition`: differentiate each component of `X` to get `U`,
then each component of `U` to get `A`.  An exception in any component
propagates (`none`) and nothing is published. -/
def solveFromPosition (E : CasEnv) (X : Vector4) : Option KinTriple := do
  let u0 ← deriveSymbolic E X.c0 "tau"
  let u1 ← deriveSymbolic E X.c1 "tau"
  let u2 ← deriveSymbolic E X.c2 "tau"
  let u3 ← deriveSymbolic E X.c3 "tau"
  let a0 ← deriveSymbolic E u0 "tau"
  let a1 ← deriveSymbolic E u1 "tau"
  let a2 ← deriveSymbolic E u2 "tau"
  let a3 ← deriveSymbolic E u3 "tau"
  some ⟨X, ⟨u0, u1, u2, u3⟩, ⟨a0, a1, a2, a3⟩⟩

/-- `solveFromVelocity`: integrate each component of `U` with the matching
component of `X0` as integration constant, and differentiate `U` for the
acceleration. -/
def solveFromVelocity (E : CasEnv) (U : Vector4) (X0 : Quad4) :
    Option KinTriple := do
  let x0 ← integrateSymbolic E U.c0 X0.c0 "tau"
  let x1 ← integrateSymbolic E U.c1 X0.c1 "tau"
  let x2 ← integrateSymbolic E U.c2 X0.c2 "tau"
  let x3 ← integrateSymbolic E U.c3 X0.c3 "tau"
  let a0 ← deriveSymbolic E U.c0 "tau"
  let a1 ← deriveSymbolic E U.c1 "tau"
  let a2 ← deriveSymbolic E U.c2 "tau"
  let a3 ← deriveSymbolic E U.c3 "tau"
  some ⟨⟨x0, x1, x2, x3⟩, U, ⟨a0, a1, a2, a3⟩⟩

/-- `solveFromAcceleration`: integrate `A` with `U0` to get `U`, then
integrate `U` with `X0` to get `X`. -/
def solveFromAcceleration (E : CasEnv) (A : Vector4) (U0 X0 : Quad4) :
    Option KinTriple := do
  let u0 ← integrateSymbolic E A.c0 U0.c0 "tau"
  let u1 ← integrateSymbolic E A.c1 U0.c1 "tau"
  let u2 ← integrateSymbolic E A.c2 U0.c2 "tau"
  let u3 ← integrateSymbolic E A.c3 U0.c3 "tau"
  let x0 ← integrateSymbolic E u0 X0.c0 "tau"
  let x1 ← integrateSymbolic E u1 X0.c1 "tau"
  let x2 ← integrateSymbolic E u2 X0.c2 "tau"
  let x3 ← integrateSymbolic E u3 X0.c3 "tau"
  some ⟨⟨x0, x1, x2, x3⟩, ⟨u0, u1, u2, u3⟩, A⟩

/-! ## Numeric evaluator -/

/-- One component of the evaluator:
`Number(mathEval(nerdamer(substituteConstants(expr), {tau: tauStr}).text()))`,
with `none` for a thrown exception. -/
def evalComponent (E : CasEnv) (expr tauStr : String) : Option JSNum :=
  (E.runAtTau (substituteConstants expr) tauStr).bind E.mathEval

/-- `evaluateVectorAtTau`: evaluate the four components at `tau`; if any
evaluation throws, or any resulting component is `NaN`, the whole vector
degrades to `[0, 0, 0, 0]` and nothing is raised to the caller. -/
def evaluateVectorAtTau (E : CasEnv) (V : Vector4) (tau : ℚ) :
    NumericVector4 :=
  let tauStr := E.numToString tau
  match evalComponent E V.c0 tauStr, evalComponent E V.c1 tauStr,
        evalComponent E V.c2 tauStr, evalComponent E V.c3 tauStr with
  | some a, some b, some c, some d =>
    if a.isNaN || b.isNaN || c.isNaN || d.isNaN then zeroNumeric4
    else ⟨a, b, c, d⟩
  | _, _, _, _ => zeroNumeric4

/-! ## Proper-time locator -/

/-- The bisection loop of `findTauForLabTime`, with the remaining
iteration budget as fuel.  When the budget is exhausted the final
midpoint is taken, and clamped to `0` when its residual exceeds `100`. -/
def findTauLoop (E : CasEnv) (X : Vector4) (target : ℚ) :
    ℕ → ℚ → ℚ → ℚ
  | 0, low, high =>
    if ((evaluateVectorAtTau E X ((low + high) / 2)).c0).absSubGt target 100
    then 0 else (low + high) / 2
  | n + 1, low, high =>
    if ((evaluateVectorAtTau E X ((low + high) / 2)).c0).isNaN then 0
    else if ((evaluateVectorAtTau E X ((low + high) / 2)).c0).absSubLt
        target (1 / 10000) then (low + high) / 2
    else if ((evaluateVectorAtTau E X ((low + high) / 2)).c0).ltQ target
    then findTauLoop E X target n ((low + high) / 2) high
    else findTauLoop E X target n low ((low + high) / 2)

/-- `findTauForLabTime`: bisection over the bracket `[-1000, 1000]` with a
budget of 100 iterations. -/
def findTauForLabTime (E : CasEnv) (positionExpr : Vector4)
    (target : ℚ) : ℚ :=
  findTauLoop E positionExpr target 100 (-1000) 1000

/-! ## Physics layer (`SpacetimeGraph.tsx`)

The numeric functions that involve only field arithmetic are stated over
an arbitrary linear ordered field `K`, so that the exact-rational
instance is executable; the claims instantiate `K` as needed.  Events and
4-velocities are `Fin 4 → K` in the component order `(t, x, y, z)`. -/

/-- `magnitudeSquared`: the Minkowski square
`-(V^0)^2 + (V^1)^2 + (V^2)^2 + (V^3)^2` (signature `-,+,+,+`). -/
def magnitudeSquared {K : Type} [LinearOrderedField K]
    (V : Fin 4 → K) : K :=
  -(V 0) ^ 2 + (V 1) ^ 2 + (V 2) ^ 2 + (V 3) ^ 2

/-- `calculateIntervalSquared`: the invariant interval `ds^2` between two
events, the Minkowski square of their componentwise difference. -/
def calculateIntervalSquared {K : Type} [LinearOrderedField K]
    (event1 event2 : Fin 4 → K) : K :=
  magnitudeSquared (fun i => event2 i - event1 i)

/-- `extract3Velocity`: the 3-velocity `[U^1/U^0, U^2/U^0, U^3/U^0]`
(as an ordered triple), with the zero 3-velocity when `|U^0| < 1e-10`. -/
def extract3Velocity {K : Type} [LinearOrderedField K]
    (U : Fin 4 → K) : K × K × K :=
  if |U 0| < 1 / 10 ^ 10 then (0, 0, 0)
  else (U 1 / U 0, U 2 / U 0, U 3 / U 0)

/-- The reason carried by an invalid `validateCausality` result.  The
source attaches a diagnostic message string; we record which of the three
checks produced it. -/
inductive CausalityReason where
  | backwardInTime
  | notNormalized
  | superluminal
deriving DecidableEq, Repr

/-- The record `{isValid, reason?, U_squared, v_squared}` returned by
`validateCausality`. -/
structure CausalityResult (K : Type) where
  isValid : Bool
  reason : Option CausalityReason
  U_squared : K
  v_squared : K
deriving DecidableEq, Repr

/-- `validateCausality`: fails when `U^0 < 0`, then when
`|U·U - (-1)|` exceeds `1e-4`, then when the 3-speed squared is `≥ 1`;
otherwise succeeds, reporting the measured invariants. -/
def validateCausality {K : Type} [LinearOrderedField K]
    (U : Fin 4 → K) : CausalityResult K :=
  let U_squared := magnitudeSquared U
  if U 0 < 0 then
    ⟨false, some .backwardInTime, U_squared, 0⟩
  else if |U_squared - (-1)| > 1 / 10 ^ 4 then
    ⟨false, some .notNormalized, U_squared, 0⟩
  else
    let v3 := extract3Velocity U
    let v_squared := v3.1 ^ 2 + v3.2.1 ^ 2 + v3.2.2 ^ 2
    if 1 ≤ v_squared then
      ⟨false, some .superluminal, U_squared, v_squared⟩
    else
      ⟨true, none, U_squared, v_squared⟩

/-- `calculateGamma`: `1 / Math.sqrt(1 - v²)`.  The source returns
`Infinity` when `v² ≥ 1`; infinities are not representable in `ℝ`, so the
model returns `0` there, and every theorem that touches this function
assumes `v² < 1`, where the model is exact. -/
noncomputable def calculateGamma (v3 : ℝ × ℝ × ℝ) : ℝ :=
  let v_squared := v3.1 ^ 2 + v3.2.1 ^ 2 + v3.2.2 ^ 2
  if 1 ≤ v_squared then 0
  else 1 / Real.sqrt (1 - v_squared)

/-- The explicit 4×4 identity matrix literal the source returns for a
negligible boost velocity. -/
def identityMatrix4 : Matrix (Fin 4) (Fin 4) ℝ :=
  !![1, 0, 0, 0;
     0, 1, 0, 0;
     0, 0, 1, 0;
     0, 0, 0, 1]

/-- `getLorentzBoostMatrix`: identity for `v² < 1e-10`; otherwise
`Λ⁰₀ = γ`, `Λ⁰ᵢ = Λⁱ₀ = -γ vᵢ`, and
`Λⁱⱼ = δᵢⱼ + (γ - 1) vᵢ vⱼ / v²`. -/
noncomputable def getLorentzBoostMatrix (v3 : ℝ × ℝ × ℝ) :
    Matrix (Fin 4) (Fin 4) ℝ :=
  let v2 := v3.1 ^ 2 + v3.2.1 ^ 2 + v3.2.2 ^ 2
  if v2 < 1 / 10 ^ 10 then identityMatrix4
  else
    let g := calculateGamma v3
    !![g, -g * v3.1, -g * v3.2.1, -g * v3.2.2;
       -g * v3.1, 1 + (g - 1) * (v3.1 * v3.1) / v2,
         (g - 1) * (v3.1 * v3.2.1) / v2, (g - 1) * (v3.1 * v3.2.2) / v2;
       -g * v3.2.1, (g - 1) * (v3.2.1 * v3.1) / v2,
         1 + (g - 1) * (v3.2.1 * v3.2.1) / v2,
         (g - 1) * (v3.2.1 * v3.2.2) / v2;
       -g * v3.2.2, (g - 1) * (v3.2.2 * v3.1) / v2,
         (g - 1) * (v3.2.2 * v3.2.1) / v2,
         1 + (g - 1) * (v3.2.2 * v3.2.2) / v2]

/-- `applyLorentzTransformation`: the matrix-vector product
`result[i] = Σ_j Lambda[i][j] * V[j]`. -/
def applyLorentzTransformation {K : Type} [LinearOrderedField K]
    (Lambda : Matrix (Fin 4) (Fin 4) K) (V : Fin 4 → K) : Fin 4 → K :=
  fun i => ∑ j, Lambda i j * V j

/-! ## Simulator store (`useSimulatorStore.ts`) -/

/-- The particle record.  Expression strings are held verbatim; numeric
fields are finite JavaScript numbers. -/
structure ParticleState where
  id : String
  name : String
  color : String
  mass : ℚ
  initialPosition : Quad4
  initialVelocity : Quad4
  inputPosition : Option Vector4
  inputVelocity : Option Vector4
  inputAcceleration : Option Vector4
  positionExpr : Vector4
  velocityExpr : Vector4
  accelerationExpr : Vector4
deriving DecidableEq, Repr

/-- `InputType = 'position' | 'velocity' | 'acceleration'`. -/
inductive InputType where
  | position
  | velocity
  | acceleration
deriving DecidableEq, Repr

/-- `SpatialDimension = 'x' | 'y' | 'z'`. -/
inductive SpatialDimension where
  | x | y | z
deriving DecidableEq, Repr

/-- `ViewMode = '2d' | '3d'`. -/
inductive ViewMode where
  | two | three
deriving DecidableEq, Repr

/-- `createDefaultParticle`, with the randomly generated id and colour as
parameters: a rest particle with `inputPosition = ['tau','0','0','0']`
as the only primary input. -/
def createDefaultParticle (id color : String) : ParticleState where
  id := id
  name := "Particle " ++ id.take 4
  color := color
  mass := 1
  initialPosition := ⟨0, 0, 0, 0⟩
  initialVelocity := ⟨1, 0, 0, 0⟩
  inputPosition := some ⟨"tau", "0", "0", "0"⟩
  inputVelocity := none
  inputAcceleration := none
  positionExpr := ⟨"tau", "0", "0", "0"⟩
  velocityExpr := ⟨"1", "0", "0", "0"⟩
  accelerationExpr := ⟨"0", "0", "0", "0"⟩

/-- The kinematic solve performed by `updateParticleInput` for a given
primary-input kind. -/
def solveForInput (E : CasEnv) (ty : InputType) (input : Vector4)
    (p : ParticleState) : Option KinTriple :=
  match ty with
  | .position => solveFromPosition E input
  | .velocity => solveFromVelocity E input p.initialPosition
  | .acceleration =>
    solveFromAcceleration E input p.initialVelocity p.initialPosition

/-- The per-particle body of `updateParticleInput`: the chosen primary
input field is set and the other two deleted; then the solver runs inside
`try`.  On success the derived triple is replaced wholesale; on an
exception the previous `positionExpr` / `velocityExpr` /
`accelerationExpr` are kept (the input fields were already updated before
the solver ran). -/
def updateParticleInputOne (E : CasEnv) (ty : InputType)
    (input : Vector4) (p : ParticleState) : ParticleState :=
  let newP :=
    match ty with
    | .position =>
      { p with inputPosition := some input, inputVelocity := none,
               inputAcceleration := none }
    | .velocity =>
      { p with inputVelocity := some input, inputPosition := none,
               inputAcceleration := none }
    | .acceleration =>
      { p with inputAcceleration := some input, inputPosition := none,
               inputVelocity := none }
  match solveForInput E ty input p with
  | some sol =>
    { newP with positionExpr := sol.X, velocityExpr := sol.U,
                accelerationExpr := sol.A }
  | none => newP

/-- The per-particle body of `updateParticleInitialConditions`: missing
arguments default to the stored values; if a velocity (else an
acceleration) primary input is present the derived triple is re-solved,
keeping the old triple on an exception. -/
def updateParticleICOne (E : CasEnv) (X0? U0? : Option Quad4)
    (p : ParticleState) : ParticleState :=
  let nextX0 := X0?.getD p.initialPosition
  let nextU0 := U0?.getD p.initialVelocity
  let oldTriple : KinTriple :=
    ⟨p.positionExpr, p.velocityExpr, p.accelerationExpr⟩
  let triple :=
    match p.inputVelocity with
    | some uIn => (solveFromVelocity E uIn nextX0).getD oldTriple
    | none =>
      match p.inputAcceleration with
      | some aIn => (solveFromAcceleration E aIn nextU0 nextX0).getD oldTriple
      | none => oldTriple
  { p with initialPosition := nextX0, initialVelocity := nextU0,
           positionExpr := triple.X, velocityExpr := triple.U,
           accelerationExpr := triple.A }

/-- The store state. -/
structure SimulatorState where
  particles : List ParticleState
  activeReferenceFrameId : String
  animationTime : ℚ
  activeDimension : SpatialDimension
  viewMode : ViewMode
  tauRange : ℚ
  timeMin : ℚ
  timeMax : ℚ
deriving DecidableEq, Repr

/-- The store's actions; the randomly generated id and colour of
`addParticle` are parameters. -/
inductive StoreAction where
  | addParticle (id color : String)
  | removeParticle (id : String)
  | updateParticleName (id name : String)
  | updateParticleColor (id color : String)
  | updateParticleInput (id : String) (ty : InputType) (input : Vector4)
  | updateParticleIC (id : String) (X0? U0? : Option Quad4)
  | setActiveReferenceFrame (id : String)
  | setAnimationTime (t : ℚ)
  | setActiveDimension (d : SpatialDimension)
  | setViewMode (m : ViewMode)
  | setTauRange (range : ℚ)
  | setTimeMin (val : ℚ)
  | setTimeMax (val : ℚ)

/-- One store action applied to the state. -/
def step (E : CasEnv) (s : SimulatorState) : StoreAction → SimulatorState
  | .addParticle id color =>
    { s with particles := s.particles ++ [createDefaultParticle id color] }
  | .removeParticle id =>
    { s with particles := s.particles.filter (fun p => p.id ≠ id),
             activeReferenceFrameId :=
               if s.activeReferenceFrameId = id then "Lab"
               else s.activeReferenceFrameId }
  | .updateParticleName id name =>
    { s with particles := s.particles.map (fun p =>
        if p.id = id then { p with name := name } else p) }
  | .updateParticleColor id color =>
    { s with particles := s.particles.map (fun p =>
        if p.id = id then { p with color := color } else p) }
  | .updateParticleInput id ty input =>
    { s with particles := s.particles.map (fun p =>
        if p.id = id then updateParticleInputOne E ty input p else p) }
  | .updateParticleIC id X0? U0? =>
    { s with particles := s.particles.map (fun p =>
        if p.id = id then updateParticleICOne E X0? U0? p else p) }
  | .setActiveReferenceFrame id => { s with activeReferenceFrameId := id }
  | .setAnimationTime t => { s with animationTime := t }
  | .setActiveDimension d => { s with activeDimension := d }
  | .setViewMode m => { s with viewMode := m }
  | .setTauRange range =>
    { s with tauRange := max 10 (min 1000 range) }
  | .setTimeMin val =>
    { s with timeMin := min val (s.timeMax - 1 / 10) }
  | .setTimeMax val =>
    { s with timeMax := max val (s.timeMin + 1 / 10) }

/-- The initial store state: one default particle, lab frame active. -/
def initialState (id color : String) : SimulatorState where
  particles := [createDefaultParticle id color]
  activeReferenceFrameId := "Lab"
  animationTime := 0
  activeDimension := .x
  viewMode := .two
  tauRange := 50
  timeMin := -10
  timeMax := 10

/-- States reachable from the initial state by store actions. -/
inductive Reachable (E : CasEnv) : SimulatorState → Prop
  | init (id color : String) : Reachable E (initialState id color)
  | step {s : SimulatorState} (a : StoreAction) :
      Reachable E s → Reachable E (step E s a)

/-- A particle has at most one primary input field defined. -/
def atMostOnePrimary (p : ParticleState) : Prop :=
  (if p.inputPosition.isSome then 1 else 0)
    + (if p.inputVelocity.isSome then 1 else 0)
    + (if p.inputAcceleration.isSome then (1 : ℕ) else 0) ≤ 1

/-! ## Helper lemmas on the evaluator -/

/-- A JavaScript number whose `isNaN` test is false is not `NaN`. -/
theorem JSNum.ne_nan_of_not_isNaN {a : JSNum} (h : a.isNaN = false) :
    a ≠ JSNum.nan := by
  cases a <;> simp_all [JSNum.isNaN]

/-- The evaluator never returns a vector holding `NaN`: a thrown
exception or a `NaN` component yields the zero vector, whose components
are finite. -/
theorem evaluateVectorAtTau_no_nan (E : CasEnv) (V : Vector4) (tau : ℚ) :
    (evaluateVectorAtTau E V tau).c0 ≠ JSNum.nan ∧
    (evaluateVectorAtTau E V tau).c1 ≠ JSNum.nan ∧
    (evaluateVectorAtTau E V tau).c2 ≠ JSNum.nan ∧
    (evaluateVectorAtTau E V tau).c3 ≠ JSNum.nan := by
  unfold evaluateVectorAtTau
  rcases h0 : evalComponent E V.c0 (E.numToString tau) with _ | a <;>
    rcases h1 : evalComponent E V.c1 (E.numToString tau) with _ | b <;>
    rcases h2 : evalComponent E V.c2 (E.numToString tau) with _ | c <;>
    rcases h3 : evalComponent E V.c3 (E.numToString tau) with _ | d <;>
    simp only [h0, h1, h2, h3] <;> try simp [zeroNumeric4]
  by_cases hn : ((a.isNaN = true ∨ b.isNaN = true) ∨ c.isNaN = true) ∨ d.isNaN = true
  · simp [if_pos hn]
  · simp only [if_neg hn]
    push_neg at hn
    obtain ⟨⟨⟨n0, n1⟩, n2⟩, n3⟩ := hn
    exact ⟨JSNum.ne_nan_of_not_isNaN (Bool.not_eq_true _ |>.mp n0),
           JSNum.ne_nan_of_not_isNaN (Bool.not_eq_true _ |>.mp n1),
           JSNum.ne_nan_of_not_isNaN (Bool.not_eq_true _ |>.mp n2),
           JSNum.ne_nan_of_not_isNaN (Bool.not_eq_true _ |>.mp n3)⟩

/-- A failed component evaluation: the engine threw, or the resulting
number is `NaN`. -/
def failedComp (r : Option JSNum) : Prop :=
  r = none ∨ ∃ a, r = some a ∧ a.isNaN = true

/-! ## Concrete environments used by witnesses and counterexamples -/

/-- An environment whose engine calls always succeed with the literal
`"0"`, which evaluates to the number `0`. -/
def envZero : CasEnv :=
  ⟨fun _ => some "0", fun _ _ => some "0", fun _ => some (.num 0),
   fun _ => "0"⟩

/-- An environment in which every engine call throws. -/
def envThrow : CasEnv :=
  ⟨fun _ => none, fun _ _ => none, fun _ => none, fun _ => "0"⟩

/-- An environment modelling the evaluation of an expression such as
`1/tau` at `tau = 0`: substitution yields `1/0`, which mathjs evaluates
to `Infinity` — a non-`NaN` value that the evaluator's only guard
(`Number.isNaN`) does not intercept. -/
def envInf : CasEnv :=
  ⟨fun _ => some "1/0", fun _ _ => some "1/0", fun _ => some .posInf,
   fun _ => "0"⟩

/-- The default rest-particle position vector `['tau','0','0','0']`. -/
def restVector : Vector4 := ⟨"tau", "0", "0", "0"⟩

/-- C1: if evaluating any of the four components of `V` at `tau` throws
or yields `NaN`, then `evaluateVectorAtTau` returns exactly the zero
vector `[0,0,0,0]` (the whole vector, not just the failing component),
and no exception reaches the caller (the function is total); otherwise
it returns the four componentwise evaluation results. -/
theorem C1_evaluateVectorAtTau_zero_on_failure (E : CasEnv) (V : Vector4)
    (tau : ℚ) :
    ((failedComp (evalComponent E V.c0 (E.numToString tau)) ∨
      failedComp (evalComponent E V.c1 (E.numToString tau)) ∨
      failedComp (evalComponent E V.c2 (E.numToString tau)) ∨
      failedComp (evalComponent E V.c3 (E.numToString tau))) →
      evaluateVectorAtTau E V tau = zeroNumeric4) ∧
    (∀ a b c d : JSNum,
      evalComponent E V.c0 (E.numToString tau) = some a →
      evalComponent E V.c1 (E.numToString tau) = some b →
      evalComponent E V.c2 (E.numToString tau) = some c →
      evalComponent E V.c3 (E.numToString tau) = some d →
      a.isNaN = false → b.isNaN = false → c.isNaN = false →
      d.isNaN = false →
      evaluateVectorAtTau E V tau = ⟨a, b, c, d⟩) := by
  constructor
  · intro h
    unfold evaluateVectorAtTau
    rcases h0 : evalComponent E V.c0 (E.numToString tau) with _ | a <;>
      rcases h1 : evalComponent E V.c1 (E.numToString tau) with _ | b <;>
      rcases h2 : evalComponent E V.c2 (E.numToString tau) with _ | c <;>
      rcases h3 : evalComponent E V.c3 (E.numToString tau) with _ | d <;>
      simp only [h0, h1, h2, h3]
    have hna : (a.isNaN || b.isNaN || c.isNaN || d.isNaN) = true := by
      simp only [Bool.or_eq_true]
      rcases h with hf | hf | hf | hf <;>
        rcases hf with hnone | ⟨x, hx, hxn⟩ <;> simp_all
    rw [if_pos hna]
  · intro a b c d h0 h1 h2 h3 n0 n1 n2 n3
    unfold evaluateVectorAtTau
    simp only [h0, h1, h2, h3, n0, n1, n2, n3]
    simp

/-- Witness for C1: with an always-throwing engine the evaluator returns
the zero vector; with an engine that evaluates every component to `0` it
returns the componentwise results. -/
theorem C1_witness :
    evaluateVectorAtTau envThrow restVector 0 = zeroNumeric4 ∧
    evaluateVectorAtTau envZero restVector 0 =
      ⟨.num 0, .num 0, .num 0, .num 0⟩ :=
  ⟨(C1_evaluateVectorAtTau_zero_on_failure envThrow restVector 0).1
     (Or.inl (Or.inl rfl)),
   (C1_evaluateVectorAtTau_zero_on_failure envZero restVector 0).2
     _ _ _ _ rfl rfl rfl rfl rfl rfl rfl rfl⟩

/-- C8 (amended): the evaluator's result never holds `NaN` in any
component.  (Finiteness, the other half of the original claim, fails:
see the counterexample.) -/
theorem C8_evaluateVectorAtTau_never_nan (E : CasEnv) (V : Vector4)
    (tau : ℚ) :
    (evaluateVectorAtTau E V tau).c0 ≠ JSNum.nan ∧
    (evaluateVectorAtTau E V tau).c1 ≠ JSNum.nan ∧
    (evaluateVectorAtTau E V tau).c2 ≠ JSNum.nan ∧
    (evaluateVectorAtTau E V tau).c3 ≠ JSNum.nan :=
  evaluateVectorAtTau_no_nan E V tau

/-- Counterexample to C8 as stated: when the engine evaluates a
component to `Infinity` (e.g. `1/tau` at `tau = 0`), the guard
`res.some(Number.isNaN)` does not fire and the returned vector holds a
non-finite component. -/
theorem C8_counterexample :
    ¬ ((evaluateVectorAtTau envInf restVector 0).c0.isFinite = true ∧
       (evaluateVectorAtTau envInf restVector 0).c1.isFinite = true ∧
       (evaluateVectorAtTau envInf restVector 0).c2.isFinite = true ∧
       (evaluateVectorAtTau envInf restVector 0).c3.isFinite = true) := by
  decide

/-! ## Claim C2: the proper-time locator -/

/-- A number passing the early-exit residual test is finite with
residual below the tolerance. -/
theorem JSNum.of_absSubLt {a : JSNum} {t eps : ℚ}
    (h : a.absSubLt t eps = true) :
    ∃ x, a = JSNum.num x ∧ |x - t| < eps := by
  cases a <;> simp_all [JSNum.absSubLt]

/-- A non-`NaN` number failing the final residual test is finite with
residual at most the bound. -/
theorem JSNum.of_absSubGt_false {a : JSNum} {t bound : ℚ}
    (h : a.absSubGt t bound = false) (hne : a ≠ JSNum.nan) :
    ∃ x, a = JSNum.num x ∧ |x - t| ≤ bound := by
  cases a <;> simp_all [JSNum.absSubGt]

/-- Safety of the bisection loop: whatever the engine does, the returned
proper time is the clamp value `0`, or a point whose evaluated time
component is finite with residual at most `100` from the target. -/
theorem findTauLoop_safe (E : CasEnv) (X : Vector4) (target : ℚ)
    (fuel : ℕ) :
    ∀ low high : ℚ,
      findTauLoop E X target fuel low high = 0 ∨
      ∃ x, (evaluateVectorAtTau E X
              (findTauLoop E X target fuel low high)).c0 = JSNum.num x ∧
           |x - target| ≤ 100 := by
  induction fuel with
  | zero =>
    intro low high
    unfold findTauLoop
    by_cases hg : ((evaluateVectorAtTau E X ((low + high) / 2)).c0).absSubGt
        target 100 = true
    · left
      rw [if_pos hg]
    · right
      rw [if_neg hg]
      have hne := (evaluateVectorAtTau_no_nan E X ((low + high) / 2)).1
      exact JSNum.of_absSubGt_false (Bool.not_eq_true _ |>.mp hg) hne
  | succ n ih =>
    intro low high
    unfold findTauLoop
    by_cases hnan : ((evaluateVectorAtTau E X ((low + high) / 2)).c0).isNaN
        = true
    · left
      rw [if_pos hnan]
    · rw [if_neg hnan]
      by_cases hlt : ((evaluateVectorAtTau E X ((low + high) / 2)).c0).absSubLt
          target (1 / 10000) = true
      · right
        rw [if_pos hlt]
        rcases JSNum.of_absSubLt hlt with ⟨x, hx, hb⟩
        exact ⟨x, hx, le_trans hb.le (by norm_num)⟩
      · rw [if_neg hlt]
        by_cases hdir : ((evaluateVectorAtTau E X ((low + high) / 2)).c0).ltQ
            target = true
        · rw [if_pos hdir]
          exact ih ((low + high) / 2) high
        · rw [if_neg hdir]
          exact ih low ((low + high) / 2)

/-- C2: `findTauForLabTime` bisects the fixed bracket `[-1000, 1000]`
for a budget of 100 iterations (the shape of `findTauLoop`), aborts with
`0` on a `NaN` midpoint, returns a midpoint as soon as its residual
falls below `1e-4` (second conjunct, at the first midpoint `0`), and
otherwise returns either the final midpoint, whose residual is then at
most `100`, or the clamp value `0` (first conjunct). -/
theorem C2_findTauForLabTime_safe (E : CasEnv) (X : Vector4)
    (target : ℚ) :
    (findTauForLabTime E X target = 0 ∨
     ∃ x, (evaluateVectorAtTau E X
             (findTauForLabTime E X target)).c0 = JSNum.num x ∧
          |x - target| ≤ 100) ∧
    (∀ x, (evaluateVectorAtTau E X 0).c0 = JSNum.num x →
      |x - target| < 1 / 10000 → findTauForLabTime E X target = 0) := by
  constructor
  · exact findTauLoop_safe E X target 100 (-1000) 1000
  · intro x hx hr
    have h0 : ((-1000 : ℚ) + 1000) / 2 = 0 := by norm_num
    unfold findTauForLabTime findTauLoop
    rw [h0, hx]
    rw [if_neg (show ¬(JSNum.num x).isNaN = true by simp [JSNum.isNaN])]
    have hr' : |x - target| < 10000⁻¹ := by rwa [one_div] at hr
    rw [if_pos (show (JSNum.num x).absSubLt target (1 / 10000) = true by
          simp [JSNum.absSubLt, hr'])]

/-- Witness for C2: with an engine evaluating every component to `0` and
target lab time `0`, the first midpoint `0` already has residual below
`1e-4`, so the locator returns it. -/
theorem C2_witness : findTauForLabTime envZero restVector 0 = 0 :=
  (C2_findTauForLabTime_safe envZero restVector 0).2 0 (by decide)
    (by norm_num)

/-! ## Claims C9 and C10: the simulator store -/

/-- C9: if the kinematic solve raises, `updateParticleInput` leaves the
derived triple (`positionExpr`, `velocityExpr`, `accelerationExpr`)
exactly as it was; if it succeeds, all three are replaced by the solved
triple.  The update of the derived triple is all-or-nothing. -/
theorem C9_updateParticleInput_all_or_nothing (E : CasEnv)
    (ty : InputType) (input : Vector4) (p : ParticleState) :
    (solveForInput E ty input p = none →
      (updateParticleInputOne E ty input p).positionExpr = p.positionExpr ∧
      (updateParticleInputOne E ty input p).velocityExpr = p.velocityExpr ∧
      (updateParticleInputOne E ty input p).accelerationExpr
        = p.accelerationExpr) ∧
    (∀ t : KinTriple, solveForInput E ty input p = some t →
      (updateParticleInputOne E ty input p).positionExpr = t.X ∧
      (updateParticleInputOne E ty input p).velocityExpr = t.U ∧
      (updateParticleInputOne E ty input p).accelerationExpr = t.A) := by
  constructor
  · intro h
    cases ty <;> simp [updateParticleInputOne, h]
  · intro t h
    cases ty <;> simp [updateParticleInputOne, h]

/-- An unparseable-expression vector (the engine throws on it). -/
def badVector : Vector4 := ⟨"q", "q", "q", "q"⟩

/-- A concrete default particle. -/
def defaultParticleA : ParticleState := createDefaultParticle "p1" "#f00"

/-- Witness for C9: with an always-throwing engine, updating the position
input leaves the derived triple unchanged. -/
theorem C9_witness :
    (updateParticleInputOne envThrow .position badVector
       defaultParticleA).positionExpr = defaultParticleA.positionExpr ∧
    (updateParticleInputOne envThrow .position badVector
       defaultParticleA).velocityExpr = defaultParticleA.velocityExpr ∧
    (updateParticleInputOne envThrow .position badVector
       defaultParticleA).accelerationExpr
      = defaultParticleA.accelerationExpr :=
  (C9_updateParticleInput_all_or_nothing envThrow .position badVector
    defaultParticleA).1 (by decide)

/-- The default particle has a single primary input. -/
theorem atMostOnePrimary_default (id color : String) :
    atMostOnePrimary (createDefaultParticle id color) := by
  simp [atMostOnePrimary, createDefaultParticle]

/-- `updateParticleInput` always leaves exactly one primary input. -/
theorem atMostOnePrimary_updateInput (E : CasEnv) (ty : InputType)
    (input : Vector4) (p : ParticleState) :
    atMostOnePrimary (updateParticleInputOne E ty input p) := by
  cases h : solveForInput E ty input p <;> cases ty <;>
    simp_all [updateParticleInputOne, atMostOnePrimary]

/-- `updateParticleInitialConditions` does not touch the primary input
fields. -/
theorem atMostOnePrimary_updateIC (E : CasEnv) (X0? U0? : Option Quad4)
    (p : ParticleState) (h : atMostOnePrimary p) :
    atMostOnePrimary (updateParticleICOne E X0? U0? p) := by
  simp_all [updateParticleICOne, atMostOnePrimary]

/-- C10: in every reachable simulator-store state, each particle has at
most one of `inputPosition`, `inputVelocity`, `inputAcceleration`
defined: `updateParticleInput` sets the chosen kind and deletes the
other two, and no other store action introduces a second primary input
field. -/
theorem C10_at_most_one_primary (E : CasEnv) (s : SimulatorState)
    (h : Reachable E s) : ∀ p ∈ s.particles, atMostOnePrimary p := by
  induction h with
  | init id color =>
    intro p hp
    simp [initialState] at hp
    subst hp
    exact atMostOnePrimary_default id color
  | step a _ ih =>
    intro p hp
    cases a with
    | addParticle id color =>
      simp [step] at hp
      rcases hp with hp | hp
      · exact ih p hp
      · subst hp
        exact atMostOnePrimary_default id color
    | removeParticle id =>
      simp [step, List.mem_filter] at hp
      exact ih p hp.1
    | updateParticleName id name =>
      simp [step] at hp
      rcases hp with ⟨q, hq, rfl⟩
      split
      · exact ih q hq
      · exact ih q hq
    | updateParticleColor id color =>
      simp [step] at hp
      rcases hp with ⟨q, hq, rfl⟩
      split
      · exact ih q hq
      · exact ih q hq
    | updateParticleInput id ty input =>
      simp [step] at hp
      rcases hp with ⟨q, hq, rfl⟩
      split
      · exact atMostOnePrimary_updateInput E ty input q
      · exact ih q hq
    | updateParticleIC id X0? U0? =>
      simp [step] at hp
      rcases hp with ⟨q, hq, rfl⟩
      split
      · exact atMostOnePrimary_updateIC E X0? U0? q (ih q hq)
      · exact ih q hq
    | setActiveReferenceFrame id => exact ih p hp
    | setAnimationTime t => exact ih p hp
    | setActiveDimension d => exact ih p hp
    | setViewMode m => exact ih p hp
    | setTauRange r => exact ih p hp
    | setTimeMin v => exact ih p hp
    | setTimeMax v => exact ih p hp

/-- Witness for C10: the invariant holds for the default particle of the
initial state, and after an input update on a reachable state. -/
theorem C10_witness :
    atMostOnePrimary (createDefaultParticle "p1" "#f00") :=
  C10_at_most_one_primary envThrow (initialState "p1" "#f00")
    (Reachable.init "p1" "#f00") (createDefaultParticle "p1" "#f00")
    (List.mem_singleton.mpr rfl)

/-! ## Claim C5: the causality validator -/

/-- When the normalization check passes, the time component is far from
zero: `U₀² ≥ 1 - 1e-4`, so the `|U₀| < 1e-10` guard of
`extract3Velocity` cannot fire. -/
theorem abs_U0_not_small {K : Type} [LinearOrderedField K]
    (U : Fin 4 → K)
    (h2 : |magnitudeSquared U - (-1)| ≤ 1 / 10 ^ 4) :
    ¬ |U 0| < 1 / 10 ^ 10 := by
  intro habs
  have hU2 : (U 0) ^ 2 < (1 / 10 ^ 10) ^ 2 := by
    have h := abs_nonneg (U 0)
    calc (U 0) ^ 2 = |U 0| ^ 2 := (sq_abs _).symm
    _ < (1 / 10 ^ 10) ^ 2 := by
        exact pow_lt_pow_left₀ habs h (by norm_num)
  have hmag : magnitudeSquared U
      = -(U 0) ^ 2 + (U 1) ^ 2 + (U 2) ^ 2 + (U 3) ^ 2 := rfl
  rw [abs_le] at h2
  nlinarith [sq_nonneg (U 1), sq_nonneg (U 2), sq_nonneg (U 3), h2.1,
    h2.2, hU2]

/-- Componentwise quotients of squares sum to the quotient of the sums of
squares. -/
theorem vsq_div_eq {K : Type} [LinearOrderedField K] (U : Fin 4 → K)
    (hU0 : U 0 ≠ 0) :
    (U 1 / U 0) ^ 2 + (U 2 / U 0) ^ 2 + (U 3 / U 0) ^ 2
      = ((U 1) ^ 2 + (U 2) ^ 2 + (U 3) ^ 2) / (U 0) ^ 2 := by
  field_simp

/-- Away from the `|U₀| < 1e-10` guard, the measured 3-speed squared is
`(U₁² + U₂² + U₃²) / U₀²`. -/
theorem extracted_vsq {K : Type} [LinearOrderedField K] (U : Fin 4 → K)
    (hbig : ¬ |U 0| < 1 / 10 ^ 10) (hU0 : U 0 ≠ 0) :
    (extract3Velocity U).1 ^ 2 + (extract3Velocity U).2.1 ^ 2
      + (extract3Velocity U).2.2 ^ 2
      = ((U 1) ^ 2 + (U 2) ^ 2 + (U 3) ^ 2) / (U 0) ^ 2 := by
  rw [extract3Velocity, if_neg hbig]
  exact vsq_div_eq U hU0

/-- C5: `validateCausality U` is invalid exactly when `U₀ < 0`, or the
Minkowski square deviates from `-1` by more than `1e-4`, or the 3-speed
squared `(U₁² + U₂² + U₃²)/U₀²` is at least `1`; the checks fire in that
order (witnessed by the recorded reason); the result always carries the
measured `U_squared`, and a valid result the measured `v_squared`; and
the tachyonic input `[0.5, 1.5, 0, 0]` is reported invalid with
`U_squared > 0`. -/
theorem C5_validateCausality_spec {K : Type} [LinearOrderedField K]
    (U : Fin 4 → K) :
    ((validateCausality U).isValid = false ↔
      (U 0 < 0 ∨ |magnitudeSquared U - (-1)| > 1 / 10 ^ 4 ∨
       1 ≤ ((U 1) ^ 2 + (U 2) ^ 2 + (U 3) ^ 2) / (U 0) ^ 2)) ∧
    ((validateCausality U).U_squared = magnitudeSquared U) ∧
    ((validateCausality U).isValid = true →
      (validateCausality U).v_squared
        = ((U 1) ^ 2 + (U 2) ^ 2 + (U 3) ^ 2) / (U 0) ^ 2) ∧
    (U 0 < 0 → (validateCausality U).reason = some .backwardInTime) ∧
    (0 ≤ U 0 → |magnitudeSquared U - (-1)| > 1 / 10 ^ 4 →
      (validateCausality U).reason = some .notNormalized) ∧
    ((validateCausality (![1/2, 3/2, 0, 0] : Fin 4 → K)).isValid = false ∧
     (validateCausality (![1/2, 3/2, 0, 0] : Fin 4 → K)).U_squared > 0)
    := by
  have hUsq : ∀ W : Fin 4 → K,
      (validateCausality W).U_squared = magnitudeSquared W := by
    intro W
    simp only [validateCausality]
    split_ifs <;> rfl
  have hconc : magnitudeSquared (![1/2, 3/2, 0, 0] : Fin 4 → K) = 2 := by
    norm_num [magnitudeSquared, Matrix.cons_val_zero, Matrix.cons_val_one,
      Matrix.head_cons, Matrix.cons_val_two, Matrix.cons_val_three,
      Matrix.vecHead, Matrix.vecTail]
  refine ⟨?_, hUsq U, ?_, ?_, ?_, ?_, ?_⟩
  · simp only [validateCausality]
    by_cases h1 : U 0 < 0
    · rw [if_pos h1]
      exact iff_of_true rfl (Or.inl h1)
    · rw [if_neg h1]
      by_cases h2 : |magnitudeSquared U - (-1)| > 1 / 10 ^ 4
      · rw [if_pos h2]
        exact iff_of_true rfl (Or.inr (Or.inl h2))
      · rw [if_neg h2]
        have hbig := abs_U0_not_small U (not_lt.mp h2)
        have hU0 : U 0 ≠ 0 := by
          intro h
          exact hbig (by rw [h]; simp)
        rw [extracted_vsq U hbig hU0]
        by_cases h3 :
            (1 : K) ≤ ((U 1) ^ 2 + (U 2) ^ 2 + (U 3) ^ 2) / (U 0) ^ 2
        · rw [if_pos h3]
          exact iff_of_true rfl (Or.inr (Or.inr h3))
        · rw [if_neg h3]
          refine iff_of_false (by simp) ?_
          rintro (h | h | h)
          exacts [h1 h, h2 h, h3 h]
  · intro hval
    simp only [validateCausality] at hval ⊢
    by_cases h1 : U 0 < 0
    · rw [if_pos h1] at hval
      simp at hval
    · rw [if_neg h1] at hval ⊢
      by_cases h2 : |magnitudeSquared U - (-1)| > 1 / 10 ^ 4
      · rw [if_pos h2] at hval
        simp at hval
      · rw [if_neg h2] at hval ⊢
        have hbig := abs_U0_not_small U (not_lt.mp h2)
        have hU0 : U 0 ≠ 0 := by
          intro h
          exact hbig (by rw [h]; simp)
        rw [extracted_vsq U hbig hU0] at hval ⊢
        by_cases h3 :
            (1 : K) ≤ ((U 1) ^ 2 + (U 2) ^ 2 + (U 3) ^ 2) / (U 0) ^ 2
        · rw [if_pos h3] at hval
          simp at hval
        · rw [if_neg h3]
  · intro h1
    simp only [validateCausality]
    rw [if_pos h1]
  · intro h1 h2
    simp only [validateCausality]
    rw [if_neg (not_lt.mpr h1), if_pos h2]
  · have h1 : ¬ ((![1/2, 3/2, 0, 0] : Fin 4 → K) 0 < 0) := by
      norm_num [Matrix.cons_val_zero]
    have h2 : |magnitudeSquared (![1/2, 3/2, 0, 0] : Fin 4 → K) - (-1)|
        > 1 / 10 ^ 4 := by
      rw [hconc]
      norm_num
    simp only [validateCausality]
    rw [if_neg h1, if_pos h2]
  · rw [hUsq (![1/2, 3/2, 0, 0] : Fin 4 → K), hconc]
    norm_num

/-- Witness for C5: a backward-in-time 4-velocity is rejected by the
first check. -/
theorem C5_witness :
    (validateCausality (![-1, 0, 0, 0] : Fin 4 → ℚ)).reason
      = some CausalityReason.backwardInTime :=
  (C5_validateCausality_spec (![-1, 0, 0, 0] : Fin 4 → ℚ)).2.2.2.1
    (by norm_num [Matrix.cons_val_zero])

/-! ## Claim C6: the integration fix-up -/

/-- C6: degenerate inputs (`""`, whitespace-only, or `"0"`) make
`integrateSymbolic` return the constant's literal and `deriveSymbolic`
return `"0"` for every engine (so the algebra engine is never consulted);
and on a non-degenerate input on which the engine's integration,
evaluation-at-zero and final simplification all succeed, the returned
expression has value exactly the constant at `tau = 0`, for any value
semantics `sem` under which the engine's outputs mean what they say
(simplification preserves value at `0`, the assembled string
`F - (z) + (c)` denotes the difference-plus-constant, `z` denotes the
antiderivative's value at `0`, and the constant's literal denotes the
constant). -/
theorem C6_integrateSymbolic_constant_at_zero :
    (∀ (E : CasEnv) (expr : String) (c : ℚ) (v : String),
      degenerateExpr expr = true →
      integrateSymbolic E expr c v = some (E.numToString c)) ∧
    (∀ (E : CasEnv) (expr v : String),
      degenerateExpr expr = true → deriveSymbolic E expr v = some "0") ∧
    (∀ (E : CasEnv) (sem : String → ℚ → ℚ) (expr : String) (c : ℚ)
       (v F z R : String),
      degenerateExpr expr = false →
      E.run ("integrate(" ++ expr ++ ", " ++ v ++ ")") = some F →
      E.runAtTau F "0" = some z →
      E.run (F ++ " - (" ++ z ++ ") + (" ++ E.numToString c ++ ")")
        = some R →
      sem R 0 = sem (F ++ " - (" ++ z ++ ") + (" ++ E.numToString c
        ++ ")") 0 →
      sem (F ++ " - (" ++ z ++ ") + (" ++ E.numToString c ++ ")") 0
        = sem F 0 - sem z 0 + sem (E.numToString c) 0 →
      sem z 0 = sem F 0 →
      sem (E.numToString c) 0 = c →
      integrateSymbolic E expr c v = some R ∧ sem R 0 = c) := by
  refine ⟨?_, ?_, ?_⟩
  · intro E expr c v h
    simp [integrateSymbolic, h]
  · intro E expr v h
    simp [deriveSymbolic, h]
  · intro E sem expr c v F z R hdeg hF hz hR hsimp harith hzero hc
    constructor
    · simp only [integrateSymbolic, hdeg, Bool.false_eq_true, if_false]
      rw [hF]
      simp only [Option.bind_eq_bind, Option.some_bind]
      rw [hz]
      simp only [Option.some_bind]
      exact hR
    · rw [hsimp, harith, hzero, hc]
      ring

/-- A concrete engine for the C6 witness: integrating `tau` yields the
opaque antiderivative `F`, whose value at zero is `Z`; the assembled
correction string simplifies to `R`. -/
def envIntegrate : CasEnv where
  run := fun s =>
    if s = "integrate(tau, tau)" then some "F"
    else if s = "F - (Z) + (5)" then some "R" else none
  runAtTau := fun f t =>
    if f = "F" && t = "0" then some "Z" else none
  mathEval := fun _ => none
  numToString := fun q => if q = 5 then "5" else "?"

/-- A value semantics matching `envIntegrate`: the antiderivative `F`
vanishes at `0`, so the corrected expression `R` has value `5`. -/
def semIntegrate : String → ℚ → ℚ :=
  fun s _ => if s = "R" then 5 else if s = "F - (Z) + (5)" then 5
    else if s = "5" then 5 else 0

/-- The assembled correction string denotes the difference-plus-constant
under `semIntegrate`. -/
theorem semIntegrate_arith :
    semIntegrate ("F" ++ " - (" ++ "Z" ++ ") + ("
        ++ envIntegrate.numToString 5 ++ ")") 0
      = semIntegrate "F" 0 - semIntegrate "Z" 0
        + semIntegrate (envIntegrate.numToString 5) 0 := by
  have h2 : envIntegrate.numToString 5 = "5" := rfl
  rw [h2]
  have h1 : ("F" ++ " - (" ++ "Z" ++ ") + (" ++ "5" ++ ")" : String)
      = "F - (Z) + (5)" := rfl
  rw [h1]
  have e1 : semIntegrate "F - (Z) + (5)" 0 = 5 := rfl
  have e2 : semIntegrate "F" 0 = 0 := rfl
  have e3 : semIntegrate "Z" 0 = 0 := rfl
  have e4 : semIntegrate "5" 0 = 5 := rfl
  rw [e1, e2, e3, e4]
  norm_num

/-- Witness for C6: for the concrete engine, `integrateSymbolic` on
`tau` with constant `5` returns `R`, whose value at `tau = 0` is `5`;
and the degenerate input `" "` short-circuits to the constant's
literal. -/
theorem C6_witness :
    (integrateSymbolic envIntegrate "tau" 5 "tau" = some "R" ∧
     semIntegrate "R" 0 = 5) ∧
    integrateSymbolic envIntegrate " " 5 "tau" = some "5" :=
  ⟨C6_integrateSymbolic_constant_at_zero.2.2 envIntegrate semIntegrate
     "tau" 5 "tau" "F" "Z" "R" (by decide) (by decide) (by decide)
     (by decide) (by decide) semIntegrate_arith
     (by decide) (by decide),
   C6_integrateSymbolic_constant_at_zero.1 envIntegrate " " 5 "tau"
     (by decide)⟩

/-! ## Claim C7: constant substitution and who applies it -/

/-- Reassembling the word/non-word runs gives back the original
characters. -/
theorem wordRuns_flatten (l : List Char) :
    ((wordRuns l).map Prod.snd).flatten = l := by
  induction l with
  | nil => rfl
  | cons ch rest ih =>
    unfold wordRuns
    cases hw : wordRuns rest with
    | nil =>
      rw [hw] at ih
      simp at ih
      simp [← ih]
    | cons p ts =>
      obtain ⟨b, run⟩ := p
      rw [hw] at ih
      simp at ih
      by_cases hb : b = isWordChar ch
      · simp [hb, ih]
      · simp [hb, ih]

/-- Whole-token matching: a name with no `\b`-delimited occurrence in
the string is never substituted, whatever its value.  In particular a
constant name occurring only inside a longer identifier (such as `c`
inside `cosh`) is left alone. -/
theorem replaceToken_of_not_hasToken (name value s : String)
    (h : hasToken name s = false) : replaceToken name value s = s := by
  unfold replaceToken
  unfold hasToken at h
  rw [List.any_eq_false] at h
  have hmap : (wordRuns s.data).map
      (fun p => if p.1 && decide (p.2 = name.data)
                then ('(' :: value.data) ++ [')'] else p.2)
      = (wordRuns s.data).map Prod.snd := by
    apply List.map_congr_left
    intro p hp
    rw [if_neg]
    simp only [Bool.and_eq_true, decide_eq_true_eq]
    intro hcon
    exact (h p hp) (by simp [hcon.1, hcon.2])
  rw [hmap, wordRuns_flatten]

/-- An engine that records the exact string passed to it. -/
def envEcho : CasEnv :=
  ⟨fun s => some s, fun _ _ => none, fun _ => none, fun _ => ""⟩

/-- Counterexample to C7 as stated: `deriveSymbolic` (and likewise
`integrateSymbolic`) does not apply the constant table before invoking
the engine — differentiating the expression `c` hands the engine
`diff(c, tau)`, not `diff((1), tau)`. -/
theorem C7_counterexample :
    ¬ (∀ (E : CasEnv) (expr v : String), degenerateExpr expr = false →
        deriveSymbolic E expr v
          = E.run ("diff(" ++ substituteConstants expr ++ ", " ++ v
              ++ ")")) := by
  intro h
  have h1 := h envEcho "c" "tau" (by decide)
  have h2 : deriveSymbolic envEcho "c" "tau" = some "diff(c, tau)" := by
    decide
  have h3 : envEcho.run ("diff(" ++ substituteConstants "c" ++ ", "
      ++ "tau" ++ ")") = some "diff((1), tau)" := by decide
  rw [h1, h3] at h2
  exact absurd h2 (by decide)

/-- C7 (amended): `validateExpression` and `evaluateVectorAtTau` apply
the constant table to their input before invoking the engine, but
`deriveSymbolic` and `integrateSymbolic` pass the raw expression
through; where substitution is applied it replaces constants
longest-name-first with whole-token matching, so a constant name inside
a function name is never replaced (`c` does not corrupt `cosh`). -/
theorem C7_substitution_amended :
    (∀ name value s : String, hasToken name s = false →
      replaceToken name value s = s) ∧
    substituteConstants "cosh(tau)" = "cosh(tau)" ∧
    substituteConstants "c*cosh(c*tau)" = "(1)*cosh((1)*tau)" ∧
    (∀ (E : CasEnv) (expr : String),
      validateExpression E expr
        = (E.run (substituteConstants expr)).isSome) ∧
    (∀ (E : CasEnv) (expr tauStr : String),
      evalComponent E expr tauStr
        = (E.runAtTau (substituteConstants expr) tauStr).bind E.mathEval) ∧
    (∀ (E : CasEnv) (expr v : String), degenerateExpr expr = false →
      deriveSymbolic E expr v
        = E.run ("diff(" ++ expr ++ ", " ++ v ++ ")")) := by
  refine ⟨replaceToken_of_not_hasToken, by decide, by decide,
    fun E expr => rfl, fun E expr tauStr => rfl, ?_⟩
  intro E expr v hdeg
  simp [deriveSymbolic, hdeg]

/-- Witness for C7's amended theorem: the constant `c` has no
whole-token occurrence in `cosh(tau)`, so the substitution leaves the
string unchanged; a degenerate-free expression is passed raw to the
differentiation engine. -/
theorem C7_witness :
    replaceToken "c" "1" "cosh(tau)" = "cosh(tau)" ∧
    deriveSymbolic envEcho "c" "tau" = some "diff(c, tau)" :=
  ⟨C7_substitution_amended.1 "c" "1" "cosh(tau)" (by decide),
   (C7_substitution_amended.2.2.2.2.2 envEcho "c" "tau" (by decide)).trans
     rfl⟩

/-! ## Claims C3 and C4: the Lorentz boost -/

/-- The Minkowski metric `diag(-1, 1, 1, 1)` as a matrix — the bilinear
form underlying `magnitudeSquared`, used to state the boost's
orthogonality. -/
def etaMatrix : Matrix (Fin 4) (Fin 4) ℝ :=
  !![-1, 0, 0, 0;
     0, 1, 0, 0;
     0, 0, 1, 0;
     0, 0, 0, 1]

/-- The source's explicit identity literal is the identity matrix. -/
theorem identityMatrix4_eq_one :
    identityMatrix4 = (1 : Matrix (Fin 4) (Fin 4) ℝ) := by
  ext i j
  fin_cases i <;> fin_cases j <;>
    simp [identityMatrix4, Matrix.one_apply, Matrix.vecHead,
      Matrix.vecTail]

/-- The metric is symmetric. -/
theorem etaMatrix_transpose : etaMatrix.transpose = etaMatrix := by
  ext i j
  fin_cases i <;> fin_cases j <;>
    simp [etaMatrix, Matrix.transpose_apply, Matrix.vecHead,
      Matrix.vecTail]

/-- The metric squares to the identity. -/
theorem etaMatrix_mul_self : etaMatrix * etaMatrix = 1 := by
  ext i j
  fin_cases i <;> fin_cases j <;>
    simp [etaMatrix, Matrix.mul_apply, Fin.sum_univ_four,
      Matrix.one_apply, Matrix.vecHead, Matrix.vecTail]

/-- For a sub-luminal velocity the Lorentz factor satisfies
`γ² (1 - v²) = 1`. -/
theorem calculateGamma_sq (v : ℝ × ℝ × ℝ)
    (h : v.1 ^ 2 + v.2.1 ^ 2 + v.2.2 ^ 2 < 1) :
    (calculateGamma v) ^ 2 * (1 - (v.1 ^ 2 + v.2.1 ^ 2 + v.2.2 ^ 2))
      = 1 := by
  simp only [calculateGamma]
  rw [if_neg (not_le.mpr h)]
  have hpos : 0 < 1 - (v.1 ^ 2 + v.2.1 ^ 2 + v.2.2 ^ 2) := by linarith
  rw [div_pow, one_pow, Real.sq_sqrt hpos.le]
  field_simp

/-- The Lorentz factor of the opposite velocity is the same. -/
theorem calculateGamma_neg (v : ℝ × ℝ × ℝ) :
    calculateGamma (-v) = calculateGamma v := by
  simp [calculateGamma, Prod.fst_neg, Prod.snd_neg, neg_sq]

/-- The boost matrix is symmetric. -/
theorem boost_transpose (v : ℝ × ℝ × ℝ) :
    (getLorentzBoostMatrix v).transpose = getLorentzBoostMatrix v := by
  simp only [getLorentzBoostMatrix]
  by_cases hs : v.1 ^ 2 + v.2.1 ^ 2 + v.2.2 ^ 2 < 1 / 10 ^ 10
  · rw [if_pos hs, identityMatrix4_eq_one, Matrix.transpose_one]
  · rw [if_neg hs]
    ext i j
    fin_cases i <;> fin_cases j <;>
      (simp [Matrix.transpose_apply, Matrix.vecHead, Matrix.vecTail]
       try ring)

set_option maxHeartbeats 3200000 in
/-- The central algebraic fact: a sub-luminal boost is a Lorentz
transformation, i.e. it is `η`-orthogonal (`L η L = η`, using the
symmetry of `L`). -/
theorem boost_eta_boost (v : ℝ × ℝ × ℝ)
    (h : v.1 ^ 2 + v.2.1 ^ 2 + v.2.2 ^ 2 < 1) :
    getLorentzBoostMatrix v * etaMatrix * getLorentzBoostMatrix v
      = etaMatrix := by
  by_cases hs : v.1 ^ 2 + v.2.1 ^ 2 + v.2.2 ^ 2 < 1 / 10 ^ 10
  · simp only [getLorentzBoostMatrix]
    rw [if_pos hs, identityMatrix4_eq_one, Matrix.one_mul,
      Matrix.mul_one]
  · have hγ := calculateGamma_sq v h
    have hS : v.1 ^ 2 + v.2.1 ^ 2 + v.2.2 ^ 2 ≠ 0 := by
      have : (1 : ℝ) / 10 ^ 10 ≤ v.1 ^ 2 + v.2.1 ^ 2 + v.2.2 ^ 2 :=
        not_lt.mp hs
      positivity
    simp only [getLorentzBoostMatrix]
    rw [if_neg hs]
    set g := calculateGamma v with hg
    clear_value g
    ext i j
    fin_cases i <;> fin_cases j <;>
      simp [Matrix.mul_apply, Fin.sum_univ_four, etaMatrix,
        Matrix.vecHead, Matrix.vecTail]
    any_goals linear_combination (-1 : ℝ) * hγ
    all_goals field_simp
    all_goals try ring_nf
    · linear_combination
        (v.1 ^ 2 * (v.1 ^ 2 + v.2.1 ^ 2 + v.2.2 ^ 2)) * hγ
    · linear_combination
        (v.1 * v.2.1 * (v.1 ^ 2 + v.2.1 ^ 2 + v.2.2 ^ 2)) * hγ
    · linear_combination
        (v.1 * v.2.2 * (v.1 ^ 2 + v.2.1 ^ 2 + v.2.2 ^ 2)) * hγ
    · linear_combination
        (v.1 * v.2.1 * (v.1 ^ 2 + v.2.1 ^ 2 + v.2.2 ^ 2)) * hγ
    · linear_combination
        (v.2.1 ^ 2 * (v.1 ^ 2 + v.2.1 ^ 2 + v.2.2 ^ 2)) * hγ
    · linear_combination
        (v.2.1 * v.2.2 * (v.1 ^ 2 + v.2.1 ^ 2 + v.2.2 ^ 2)) * hγ
    · linear_combination
        (v.1 * v.2.2 * (v.1 ^ 2 + v.2.1 ^ 2 + v.2.2 ^ 2)) * hγ
    · linear_combination
        (v.2.1 * v.2.2 * (v.1 ^ 2 + v.2.1 ^ 2 + v.2.2 ^ 2)) * hγ
    · linear_combination
        (v.2.2 ^ 2 * (v.1 ^ 2 + v.2.1 ^ 2 + v.2.2 ^ 2)) * hγ

set_option maxHeartbeats 3200000 in
/-- Boosting by the opposite velocity is conjugation by the metric:
`L(-v) = η L(v) η` (the time-space entries flip sign, the rest are
even in `v`). -/
theorem boost_neg_eq (v : ℝ × ℝ × ℝ) :
    getLorentzBoostMatrix (-v)
      = etaMatrix * getLorentzBoostMatrix v * etaMatrix := by
  have hv2 : (-v).1 ^ 2 + (-v).2.1 ^ 2 + (-v).2.2 ^ 2
      = v.1 ^ 2 + v.2.1 ^ 2 + v.2.2 ^ 2 := by
    simp [Prod.fst_neg, Prod.snd_neg]
  simp only [getLorentzBoostMatrix, hv2, calculateGamma_neg]
  by_cases hs : v.1 ^ 2 + v.2.1 ^ 2 + v.2.2 ^ 2 < 1 / 10 ^ 10
  · rw [if_pos hs, if_pos hs, identityMatrix4_eq_one, Matrix.mul_one,
      etaMatrix_mul_self]
  · rw [if_neg hs, if_neg hs]
    ext i j
    fin_cases i <;> fin_cases j <;>
      simp [Matrix.mul_apply, Fin.sum_univ_four, etaMatrix,
        Prod.fst_neg, Prod.snd_neg, Matrix.vecHead, Matrix.vecTail]

/-- C3: for every 3-velocity with `|v| < 1`, the product
`getLorentzBoostMatrix(v) · getLorentzBoostMatrix(-v)` equals the 4×4
identity matrix, every entry within `1e-10` (in the exact-real model the
product is the identity exactly). -/
theorem C3_boost_mul_boost_neg (v : ℝ × ℝ × ℝ)
    (h : v.1 ^ 2 + v.2.1 ^ 2 + v.2.2 ^ 2 < 1) :
    ∀ i j : Fin 4,
      |(getLorentzBoostMatrix v * getLorentzBoostMatrix (-v)) i j
        - identityMatrix4 i j| ≤ 1 / 10 ^ 10 := by
  have key : getLorentzBoostMatrix v * getLorentzBoostMatrix (-v)
      = identityMatrix4 := by
    rw [boost_neg_eq]
    calc getLorentzBoostMatrix v
          * (etaMatrix * getLorentzBoostMatrix v * etaMatrix)
        = getLorentzBoostMatrix v * etaMatrix * getLorentzBoostMatrix v
          * etaMatrix := by
          rw [Matrix.mul_assoc (getLorentzBoostMatrix v) etaMatrix,
            ← Matrix.mul_assoc]
      _ = etaMatrix * etaMatrix := by rw [boost_eta_boost v h]
      _ = 1 := etaMatrix_mul_self
      _ = identityMatrix4 := identityMatrix4_eq_one.symm
  intro i j
  rw [key, sub_self, abs_zero]
  norm_num

/-- Witness for C3 at the concrete velocity `(3/5, 0, 0)`. -/
theorem C3_witness :
    |(getLorentzBoostMatrix ((3 / 5 : ℝ), 0, 0)
        * getLorentzBoostMatrix (-((3 / 5 : ℝ), 0, 0))) 0 0
      - identityMatrix4 0 0| ≤ 1 / 10 ^ 10 :=
  C3_boost_mul_boost_neg ((3 / 5 : ℝ), 0, 0) (by norm_num) 0 0

/-- The loop in `applyLorentzTransformation` is the matrix-vector
product. -/
theorem applyLorentz_eq_mulVec {K : Type} [LinearOrderedField K]
    (L : Matrix (Fin 4) (Fin 4) K) (V : Fin 4 → K) :
    applyLorentzTransformation L V = L.mulVec V := rfl

/-- `magnitudeSquared` is the quadratic form of the metric matrix. -/
theorem magnitudeSquared_eq_eta (V : Fin 4 → ℝ) :
    magnitudeSquared V = Matrix.dotProduct V (etaMatrix.mulVec V) := by
  simp [magnitudeSquared, Matrix.dotProduct, Matrix.mulVec, etaMatrix,
    Fin.sum_univ_four, Matrix.vecHead, Matrix.vecTail]
  ring

/-- A sub-luminal boost preserves the Minkowski square. -/
theorem boost_preserves_mag (v : ℝ × ℝ × ℝ)
    (h : v.1 ^ 2 + v.2.1 ^ 2 + v.2.2 ^ 2 < 1) (d : Fin 4 → ℝ) :
    magnitudeSquared ((getLorentzBoostMatrix v).mulVec d)
      = magnitudeSquared d := by
  rw [magnitudeSquared_eq_eta, magnitudeSquared_eq_eta,
    Matrix.mulVec_mulVec, Matrix.dotProduct_mulVec]
  have h1 : (getLorentzBoostMatrix v).mulVec d
      = Matrix.vecMul d (getLorentzBoostMatrix v) := by
    calc (getLorentzBoostMatrix v).mulVec d
        = (getLorentzBoostMatrix v).transpose.mulVec d := by
          rw [boost_transpose]
      _ = Matrix.vecMul d (getLorentzBoostMatrix v) :=
          Matrix.mulVec_transpose (getLorentzBoostMatrix v) d
  rw [h1, Matrix.vecMul_vecMul, ← Matrix.mul_assoc,
    boost_eta_boost v h, Matrix.dotProduct_mulVec]

/-- C4: the Minkowski interval between any two events is invariant,
within `1e-6`, under any boost built from a sub-luminal 3-velocity (in
the exact-real model it is invariant exactly). -/
theorem C4_interval_invariant (v : ℝ × ℝ × ℝ)
    (h : v.1 ^ 2 + v.2.1 ^ 2 + v.2.2 ^ 2 < 1) (X1 X2 : Fin 4 → ℝ) :
    |calculateIntervalSquared
        (applyLorentzTransformation (getLorentzBoostMatrix v) X1)
        (applyLorentzTransformation (getLorentzBoostMatrix v) X2)
      - calculateIntervalSquared X1 X2| ≤ 1 / 10 ^ 6 := by
  have hdiff :
      (fun i => applyLorentzTransformation (getLorentzBoostMatrix v) X2 i
        - applyLorentzTransformation (getLorentzBoostMatrix v) X1 i)
      = (getLorentzBoostMatrix v).mulVec (fun i => X2 i - X1 i) := by
    funext i
    simp [applyLorentzTransformation, Matrix.mulVec, Matrix.dotProduct,
      mul_sub, Finset.sum_sub_distrib]
  rw [calculateIntervalSquared, calculateIntervalSquared, hdiff,
    boost_preserves_mag v h]
  rw [sub_self, abs_zero]
  norm_num

/-- Witness for C4 at the concrete velocity `(3/5, 0, 0)` and the
events `(0,0,0,0)` and `(1,2,3,4)`. -/
theorem C4_witness :
    |calculateIntervalSquared
        (applyLorentzTransformation
          (getLorentzBoostMatrix ((3 / 5 : ℝ), 0, 0)) ![0, 0, 0, 0])
        (applyLorentzTransformation
          (getLorentzBoostMatrix ((3 / 5 : ℝ), 0, 0)) ![1, 2, 3, 4])
      - calculateIntervalSquared ![0, 0, 0, 0] ![1, 2, 3, 4]|
      ≤ 1 / 10 ^ 6 :=
  C4_interval_invariant ((3 / 5 : ℝ), 0, 0) (by norm_num)
    ![0, 0, 0, 0] ![1, 2, 3, 4]
